import Mathlib

/-!
Verification of the range-aware file streaming engine of the simple-file-browser
repository (src/main.py) against its natural-language specification.

The embedding models the streaming-relevant code of src/main.py:
- `get_range_header` (lines 102-113): Range-header parsing against a file size;
- `async_iterate_file_chunks` (lines 92-100): the EOF-driven chunk producer;
- the mime resolution of `get_file_info` (lines 42-80) and of `view_file`
  (lines 153-154);
- `view_file` (lines 142-178): status, headers and body of a view response.

Python strings are modelled as `List Char` under `String`; Python byte strings
as `List Nat`; Python's arbitrary-precision signed ints as `Int`.  Fallible
Python code is modelled with `Except`: the body of `get_range_header`'s `try`
block is a separate function returning `Except PyExc _`, and the function
itself applies the `except Exception` handler to its result.
-/

namespace SFB

/-- Model of Python `str.replace(pat, rep)` restricted to what the source uses:
replaces every non-overlapping occurrence of `pat` left to right.  Structural
recursion on a fuel argument so that the function evaluates in the kernel; one
input character is consumed per step, so fuel `l.length` always suffices. -/
def startsWith : List Char → List Char → Bool
  | [], _ => true
  | _ :: _, [] => false
  | p :: ps, c :: cs => p = c && startsWith ps cs

def replaceAllAux (pat rep : List Char) : Nat → List Char → List Char
  | 0, l => l
  | _ + 1, [] => []
  | fuel + 1, c :: cs =>
    if pat ≠ [] ∧ startsWith pat (c :: cs) = true
    then rep ++ replaceAllAux pat rep fuel ((c :: cs).drop pat.length)
    else c :: replaceAllAux pat rep fuel cs

def replaceAll (pat rep l : List Char) : List Char :=
  replaceAllAux pat rep l.length l

/-- Model of Python `str.split("-")`: split on every occurrence of the single
character `-`; `"".split("-") = [""]`. -/
def splitOnDash : List Char → List (List Char)
  | [] => [[]]
  | c :: cs =>
    if c = '-' then [] :: splitOnDash cs
    else
      match splitOnDash cs with
      | [] => [[c]]
      | p :: ps => (c :: p) :: ps

/-- Leading and trailing whitespace stripping, as Python `int()` performs on
its argument. -/
def stripWs (l : List Char) : List Char :=
  ((l.dropWhile Char.isWhitespace).reverse.dropWhile Char.isWhitespace).reverse

/-- Decimal value of a digit string. -/
def digitsToNat (l : List Char) : Nat :=
  l.foldl (fun a c => a * 10 + (c.toNat - 48)) 0

def pyIntCore : List Char → Option Int
  | [] => none
  | c :: rest =>
    if c = '-' then
      if rest ≠ [] ∧ rest.all Char.isDigit then some (-(digitsToNat rest : Int)) else none
    else if c = '+' then
      if rest ≠ [] ∧ rest.all Char.isDigit then some ((digitsToNat rest : Int)) else none
    else if (c :: rest).all Char.isDigit then some ((digitsToNat (c :: rest) : Int)) else none

/-- Model of Python `int(s)` on a decimal string: strip surrounding whitespace,
an optional single sign, then a non-empty run of decimal digits; `none` models
the `ValueError` raised otherwise.  (Underscore digit grouping and non-ASCII
digits, which no input in this development exercises, are not modelled.) -/
def pyInt (l : List Char) : Option Int :=
  pyIntCore (stripWs l)

/-- Exceptions that the body of `get_range_header`'s `try` block can raise:
`HTTPException(status_code=416)` from the explicit `raise`, and `ValueError`
from `split` unpacking or `int()` conversion. -/
inductive PyExc where
  | httpException (status : Int)
  | valueError
deriving DecidableEq

/-- The body of the `try` block of `get_range_header` (src/main.py lines
104-111), before the `except Exception` handler is applied:

    range_str = range_header.replace("bytes=", "")
    start, end = range_str.split("-")
    start = int(start)
    end = int(end) if end else file_size - 1
    if start >= file_size or end >= file_size or start > end:
        raise HTTPException(status_code=416, detail="Invalid range")
    return start, end, True
-/
def get_range_header_try (chars : List Char) (file_size : Int) :
    Except PyExc (Int × Int × Bool) :=
  let range_str := replaceAll "bytes=".data [] chars
  match splitOnDash range_str with
  | [s, e] =>
    match pyInt s with
    | none => Except.error PyExc.valueError
    | some start =>
      match (if e = [] then some (file_size - 1) else pyInt e) with
      | none => Except.error PyExc.valueError
      | some stop =>
        if start ≥ file_size ∨ stop ≥ file_size ∨ start > stop
        then Except.error (PyExc.httpException 416)
        else Except.ok (start, stop, true)
  | _ => Except.error PyExc.valueError

/-- `get_range_header` (src/main.py lines 102-113).  The `except Exception`
handler catches every exception the `try` block raises — including the
`HTTPException(416)` raised by the function's own validity check, since
`HTTPException` is an `Exception` subclass — and returns the full-file
default `(0, file_size - 1, False)`. -/
def get_range_header (range_header : String) (file_size : Int) :
    Int × Int × Bool :=
  match get_range_header_try range_header.data file_size with
  | Except.ok r => r
  | Except.error _ => (0, file_size - 1, false)

/-- The read loop of `async_iterate_file_chunks` (src/main.py lines 96-100)
on the byte sequence remaining after the seek: each iteration reads up to
`chunk_size` bytes and the loop ends when a read returns no bytes.  Structural
recursion on a fuel argument so the function evaluates in the kernel; every
iteration consumes at least one byte (or the loop ends), so fuel equal to the
file length always suffices. -/
def readChunksAux (chunk_size : Nat) : Nat → List Nat → List (List Nat)
  | 0, _ => []
  | _ + 1, [] => []
  | fuel + 1, c :: cs =>
    if chunk_size = 0 then []
    else ((c :: cs).take chunk_size) :: readChunksAux chunk_size fuel ((c :: cs).drop chunk_size)

/-- `async_iterate_file_chunks` (src/main.py lines 92-100): open the file,
seek to `start`, then read `chunk_size`-byte chunks until end of file.  The
produced value is the list of yielded chunks.  Note that no upper bound is
taken: the loop is EOF-driven. -/
def async_iterate_file_chunks (contents : List Nat) (start : Nat)
    (chunk_size : Nat) : List (List Nat) :=
  readChunksAux chunk_size contents.length (contents.drop start)

/-- The extension-to-mime fallback table `mime_map` of `get_file_info`
(src/main.py lines 50-71). -/
def mime_map : List (String × String) :=
  [(".txt", "text/plain"), (".log", "text/plain"), (".conf", "text/plain"),
   (".sh", "text/x-shellscript"), (".bashrc", "text/plain"),
   (".profile", "text/plain"), (".pdf", "application/pdf"),
   (".json", "application/json"), (".xml", "application/xml"),
   (".html", "text/html"), (".css", "text/css"),
   (".js", "application/javascript"), (".mp4", "video/mp4"),
   (".mkv", "video/x-matroska"), (".avi", "video/x-msvideo"),
   (".mov", "video/quicktime"), (".webm", "video/webm"),
   (".mp3", "audio/mpeg"), (".wav", "audio/wav"), (".ogg", "audio/ogg")]

/-- The mime resolution of `get_file_info` for a regular file (src/main.py
lines 46-72): `mimetypes.guess_type` first (modelled by the `guess` argument,
`none` when the system mime database has no entry for the path), then
`mime_map.get(extension, 'application/octet-stream')` where `extension` is
the lowercased path suffix (passed here already lowercased, as
`file_path.suffix.lower()` produces it). -/
def get_file_info_mime (guess : Option String) (extension : String) : String :=
  match guess with
  | some m => m
  | none => (mime_map.lookup extension).getD "application/octet-stream"

/-- Modelled from the claim/spec wording (C5, spec section 4.3): the asserted
resolution order for the Content-Type of the view endpoint — the system mime
database first, then the extension-to-mime fallback table, then the generic
default `application/octet-stream`. -/
def claimed_view_mime (guess : Option String) (extension : String) : String :=
  match guess with
  | some m => m
  | none =>
    match mime_map.lookup extension with
    | some m => m
    | none => "application/octet-stream"

/-- The range actually resolved by `view_file` (src/main.py line 156):
`get_range_header(range, file_size) if range else (0, file_size - 1, False)`.
Python treats both `None` and the empty string as falsy. -/
def resolvedRange (range : Option String) (file_size : Int) :
    Int × Int × Bool :=
  match range with
  | none => (0, file_size - 1, false)
  | some h => if h = "" then (0, file_size - 1, false) else get_range_header h file_size

/-- The `end - start + 1` slice size of a resolved range (src/main.py
line 157). -/
def contentLengthOf (r : Int × Int × Bool) : Int :=
  r.2.1 - r.1 + 1

/-- The observable parts of the `StreamingResponse` built by `view_file`:
status code, the headers it sets (Content-Length as a number; Python sends
`str(content_length)`), and `body`, the concatenation of all chunks the
attached producer yields. -/
structure ViewResponse where
  status_code : Int
  content_type : String
  accept_ranges : String
  content_length : Int
  content_range : Option String
  body : List Nat
deriving DecidableEq

/-- `view_file` (src/main.py lines 142-178) on the successful branch (the
path exists and is a regular file): `contents` are the file's bytes (so
`file_size = contents.length`), `guess` is `mimetypes.guess_type(full_path)[0]`
and `range` is the optional range string.  The response body producer is
`async_iterate_file_chunks(str(full_path), start)` — started at `start` with
the default 1 MiB chunk size and no upper bound. -/
def view_file (guess : Option String) (contents : List Nat)
    (range : Option String) : ViewResponse :=
  let file_size : Int := contents.length
  let mime_type := guess.getD "application/octet-stream"
  let r := resolvedRange range file_size
  let start := r.1
  let stop := r.2.1
  let isPart := r.2.2
  let content_length := stop - start + 1
  { status_code := if isPart then 206 else 200
    content_type := mime_type
    accept_ranges := "bytes"
    content_length := content_length
    content_range :=
      if isPart then
        some ("bytes " ++ toString start ++ "-" ++ toString stop ++ "/" ++ toString file_size)
      else none
    body := (async_iterate_file_chunks contents start.toNat (1024 * 1024)).flatten }

/-! ## Helper lemmas about the modelled Python primitives -/

lemma mem_of_startsWith {p l : List Char} (h : startsWith p l = true) :
    ∀ c ∈ p, c ∈ l := by
  induction p generalizing l with
  | nil => intro c hc; cases hc
  | cons a as ih =>
    cases l with
    | nil => simp [startsWith] at h
    | cons b bs =>
      rw [startsWith, Bool.and_eq_true, decide_eq_true_eq] at h
      intro c hc
      rcases List.mem_cons.mp hc with rfl | hc
      · exact h.1 ▸ List.mem_cons_self _ _
      · exact List.mem_cons_of_mem _ (ih h.2 c hc)

lemma replaceAllAux_no_pat {pat rep : List Char} {x : Char} (hx : x ∈ pat) :
    ∀ (fuel : Nat) (l : List Char), x ∉ l → replaceAllAux pat rep fuel l = l := by
  intro fuel
  induction fuel with
  | zero => intro l _; rfl
  | succ n ih =>
    intro l hl
    cases l with
    | nil => rfl
    | cons c cs =>
      rw [replaceAllAux, if_neg, ih cs (fun h => hl (List.mem_cons_of_mem _ h))]
      rintro ⟨-, hsw⟩
      exact hl (mem_of_startsWith hsw x hx)

lemma replaceAll_bytes (t : List Char) (ht : '=' ∉ t) :
    replaceAll "bytes=".data [] ("bytes=".data ++ t) = t := by
  show replaceAllAux "bytes=".data [] (t.length + 5) t = t
  exact replaceAllAux_no_pat (by decide) _ t ht

lemma splitOnDash_no_dash {t : List Char} (ht : '-' ∉ t) : splitOnDash t = [t] := by
  induction t with
  | nil => rfl
  | cons c cs ih =>
    rw [splitOnDash, if_neg (fun h => ht (List.mem_cons.mpr (Or.inl h.symm))),
      ih (fun h => ht (List.mem_cons_of_mem _ h))]

lemma splitOnDash_append_dash {t : List Char} (ht : '-' ∉ t) (r : List Char) :
    splitOnDash (t ++ '-' :: r) = t :: splitOnDash r := by
  induction t with
  | nil => simp [splitOnDash]
  | cons c cs ih =>
    rw [List.cons_append, splitOnDash,
      if_neg (fun h => ht (List.mem_cons.mpr (Or.inl h.symm))),
      ih (fun h => ht (List.mem_cons_of_mem _ h))]

lemma digit_not_ws {c : Char} (h : c.isDigit = true) : c.isWhitespace = false := by
  by_contra hw
  rw [Bool.not_eq_false] at hw
  have hcs : c = ' ' ∨ c = '\t' ∨ c = '\x0d' ∨ c = '\n' := by
    simpa [Char.isWhitespace, Bool.or_eq_true, decide_eq_true_eq, or_assoc] using hw
  rcases hcs with rfl | rfl | rfl | rfl <;> exact absurd h (by decide)

lemma digit_ne_dash {c : Char} (h : c.isDigit = true) : c ≠ '-' := by
  intro e; rw [e] at h; exact absurd h (by decide)

lemma digit_ne_plus {c : Char} (h : c.isDigit = true) : c ≠ '+' := by
  intro e; rw [e] at h; exact absurd h (by decide)

lemma stripWs_digits {t : List Char} (h1 : t ≠ [])
    (h2 : ∀ c ∈ t, c.isDigit = true) : stripWs t = t := by
  obtain ⟨c, cs, rfl⟩ := List.exists_cons_of_ne_nil h1
  have hdrop : (c :: cs).dropWhile Char.isWhitespace = c :: cs := by
    rw [List.dropWhile_cons, digit_not_ws (h2 c (List.mem_cons_self _ _))]
    simp
  rw [stripWs, hdrop]
  obtain ⟨d, ds, hrev⟩ :=
    List.exists_cons_of_ne_nil (l := (c :: cs).reverse) (by simp)
  rw [hrev, List.dropWhile_cons,
    digit_not_ws (h2 d (by
      have : d ∈ (c :: cs).reverse := hrev ▸ List.mem_cons_self _ _
      exact List.mem_reverse.mp this))]
  simp [← hrev]

lemma pyInt_digits {t : List Char} (h1 : t ≠ [])
    (h2 : ∀ c ∈ t, c.isDigit = true) :
    pyInt t = some ((digitsToNat t : Nat) : Int) := by
  obtain ⟨c, cs, rfl⟩ := List.exists_cons_of_ne_nil h1
  rw [pyInt, stripWs_digits h1 h2, pyIntCore,
    if_neg (digit_ne_dash (h2 c (List.mem_cons_self _ _))),
    if_neg (digit_ne_plus (h2 c (List.mem_cons_self _ _))),
    if_pos (List.all_eq_true.mpr h2)]

lemma not_eqsign_mem {t : List Char} (h2 : ∀ c ∈ t, c.isDigit = true) : '=' ∉ t :=
  fun hm => absurd (h2 '=' hm) (by decide)

lemma not_dash_mem {t : List Char} (h2 : ∀ c ∈ t, c.isDigit = true) : '-' ∉ t :=
  fun hm => absurd (h2 '-' hm) (by decide)

/-- The `Except.ok` branch of `get_range_header_try` always carries
`is_partial = True`: the only `return` inside the `try` block returns
`(start, end, True)`. -/
lemma try_ok_flag {l : List Char} {fs : Int} {r : Int × Int × Bool}
    (h : get_range_header_try l fs = Except.ok r) : r.2.2 = true := by
  rw [get_range_header_try] at h
  split at h
  · split at h
    · exact absurd h (by simp)
    · split at h
      · exact absurd h (by simp)
      · split at h
        · exact absurd h (by simp)
        · cases h; rfl
  · exact absurd h (by simp)

/-- Any resolved range whose flag is `false` is the full-file default. -/
lemma resolvedRange_false {range : Option String} {fs : Int}
    (h : (resolvedRange range fs).2.2 = false) :
    resolvedRange range fs = (0, fs - 1, false) := by
  cases range with
  | none => rfl
  | some s =>
    rw [resolvedRange] at h ⊢
    by_cases hs : s = ""
    · rw [if_pos hs]
    · rw [if_neg hs] at h ⊢
      rw [get_range_header] at h ⊢
      cases htry : get_range_header_try s.data fs with
      | ok r =>
        rw [htry] at h
        simp only [] at h
        exact absurd (try_ok_flag htry) (by simp [h])
      | error e => rfl

lemma lookup_mem {l : List (String × String)} {a b : String}
    (h : l.lookup a = some b) : (a, b) ∈ l := by
  induction l with
  | nil => simp [List.lookup] at h
  | cons p tl ih =>
    obtain ⟨k, v⟩ := p
    rw [List.lookup] at h
    cases hk : (a == k) with
    | true =>
      rw [hk] at h
      cases h
      exact List.mem_cons.mpr (Or.inl (by rw [eq_of_beq hk]))
    | false =>
      rw [hk] at h
      exact List.mem_cons_of_mem _ (ih h)

/-! ## Claim theorems -/

/-- Claim C1: the claim says the chunk producer attached to the response stops
emitting once `end` is reached, so the streamed body is exactly the bytes
`[start, end]`.  The code contradicts its own declared headers: for a 10-byte
file `[10, ..., 19]` (the 10,000-byte scenario scaled down) and range
`bytes=5-7`, `view_file` declares status 206, `Content-Range: bytes 5-7/10`
and `Content-Length: 3`, yet the attached producer
`async_iterate_file_chunks(path, start)` receives no upper bound and streams
from byte 5 to end of file — 5 bytes, not the 3-byte slice `[15, 16, 17]`. -/
theorem C1_chunk_producer_overruns_end :
    (view_file none [10, 11, 12, 13, 14, 15, 16, 17, 18, 19] (some "bytes=5-7")).status_code = 206 ∧
    (view_file none [10, 11, 12, 13, 14, 15, 16, 17, 18, 19] (some "bytes=5-7")).content_length = 3 ∧
    (view_file none [10, 11, 12, 13, 14, 15, 16, 17, 18, 19] (some "bytes=5-7")).content_range
      = some "bytes 5-7/10" ∧
    (view_file none [10, 11, 12, 13, 14, 15, 16, 17, 18, 19] (some "bytes=5-7")).body
      = [15, 16, 17, 18, 19] ∧
    (view_file none [10, 11, 12, 13, 14, 15, 16, 17, 18, 19] (some "bytes=5-7")).body
      ≠ [15, 16, 17] := by
  decide

/-- Claim C2: the claim says an out-of-bounds or inverted range makes range
parsing yield the RangeUnsatisfiable (HTTP 416) error rather than a normal
range tuple.  The `try` body of `get_range_header` does raise
`HTTPException(416)` in all three cases (`start >= file_size`,
`end >= file_size`, `start > end`), but the function's own blanket
`except Exception` catches it and returns the full-file non-partial default
`(0, file_size - 1, False)`, so the caller serves a 200 full-file response
and the 416 never propagates. -/
theorem C2_invalid_range_416_swallowed :
    get_range_header_try "bytes=20000-30000".data 10000
      = Except.error (PyExc.httpException 416) ∧
    get_range_header "bytes=20000-30000" 10000 = (0, 9999, false) ∧
    get_range_header_try "bytes=0-10000".data 10000
      = Except.error (PyExc.httpException 416) ∧
    get_range_header "bytes=0-10000" 10000 = (0, 9999, false) ∧
    get_range_header_try "bytes=5-3".data 10000
      = Except.error (PyExc.httpException 416) ∧
    get_range_header "bytes=5-3" 10000 = (0, 9999, false) :=
  ⟨rfl, rfl, rfl, rfl, rfl, rfl⟩

/-- Claim C3: the response status is 206 exactly when the resolved range is
partial and 200 otherwise; the Content-Length header always equals
`end - start + 1` of the resolved range — which equals the file size for a
full-file non-partial response, and differs from the file size whenever a
proper partial slice is served. -/
theorem C3_status_and_content_length (guess : Option String)
    (contents : List Nat) (range : Option String) :
    ((view_file guess contents range).status_code = 206 ↔
      (resolvedRange range (contents.length : Int)).2.2 = true) ∧
    ((resolvedRange range (contents.length : Int)).2.2 = false →
      (view_file guess contents range).status_code = 200) ∧
    (view_file guess contents range).content_length =
      contentLengthOf (resolvedRange range (contents.length : Int)) ∧
    ((resolvedRange range (contents.length : Int)).2.2 = false →
      (view_file guess contents range).content_length = (contents.length : Int)) ∧
    ((resolvedRange range (contents.length : Int)).2.2 = true →
      contentLengthOf (resolvedRange range (contents.length : Int)) ≠ (contents.length : Int) →
      (view_file guess contents range).content_length ≠ (contents.length : Int)) := by
  refine ⟨?_, ?_, rfl, ?_, ?_⟩
  · cases hp : (resolvedRange range (contents.length : Int)).2.2 <;> simp [view_file, hp]
  · intro h
    simp [view_file, h]
  · intro h
    have h0 := resolvedRange_false h
    show contentLengthOf (resolvedRange range (contents.length : Int)) = (contents.length : Int)
    rw [h0]
    simp only [contentLengthOf]
    omega
  · intro _ hne
    exact hne

/-- Claim C3 witness: a 3-byte file with `bytes=1-2` yields a 206 response
with Content-Length 2; the same file with no range header yields a 200
response with Content-Length 3 (the full file size). -/
theorem C3_status_witness :
    (view_file none [0, 1, 2] (some "bytes=1-2")).status_code = 206 ∧
    (view_file none [0, 1, 2] (some "bytes=1-2")).content_length = 2 ∧
    (view_file none [0, 1, 2] none).status_code = 200 ∧
    (view_file none [0, 1, 2] none).content_length = 3 := by
  have h := C3_status_and_content_length none [0, 1, 2] (some "bytes=1-2")
  have h0 := C3_status_and_content_length none [0, 1, 2] none
  refine ⟨h.1.mpr (by decide), ?_, h0.2.1 (by decide), ?_⟩
  · rw [h.2.2.1]
    decide
  · rw [h0.2.2.2.1 (by decide)]
    decide

/-- Claim C4 counterexample: the claim says a Range header missing the
`bytes=` prefix is malformed and degrades to the full-file default; but
`get_range_header` only deletes occurrences of the substring `bytes=`, so
the prefix-less numeric header `0-99` against a 10,000-byte file parses as
the normal partial range `(0, 99, True)`, not the default `(0, 9999, False)`. -/
theorem C4_missing_prefix_counterexample :
    get_range_header "0-99" 10000 = (0, 99, true) ∧
    get_range_header "0-99" 10000 ≠ (0, 10000 - 1, false) := by
  decide

/-- Claim C4 (amended): for every fileSize > 0, a Range header whose bounds
fail to parse as integers (non-numeric, e.g. `bytes=abc-def`, or otherwise
unparseable) returns the full-file default `(0, fileSize - 1, False)` without
raising, identically to the absent-header case; but a numeric header merely
missing the `bytes=` prefix (e.g. `0-99`) is still parsed as a normal
(possibly partial) range.  The first conjunct is universal over every header
in the malformed family (those whose bound extraction raises `ValueError`,
the only failure `int()` or tuple unpacking can raise); the next three show
the example families `bytes=abc-def`, `bytes=1-2-3` and `garbage` belong to
it for every fileSize; the last conjunct is universal over every prefix-less
header built from two in-bounds decimal digit strings. -/
theorem C4_malformed_degrades_amended (fs : Int) (hfs : 0 < fs) :
    (∀ h : String, get_range_header_try h.data fs = Except.error PyExc.valueError →
      get_range_header h fs = (0, fs - 1, false) ∧
      get_range_header h fs = resolvedRange none fs) ∧
    get_range_header_try "bytes=abc-def".data fs = Except.error PyExc.valueError ∧
    get_range_header_try "bytes=1-2-3".data fs = Except.error PyExc.valueError ∧
    get_range_header_try "garbage".data fs = Except.error PyExc.valueError ∧
    (∀ t1 t2 : List Char, t1 ≠ [] → t2 ≠ [] →
      (∀ c ∈ t1, c.isDigit = true) → (∀ c ∈ t2, c.isDigit = true) →
      ((digitsToNat t1 : Nat) : Int) ≤ ((digitsToNat t2 : Nat) : Int) →
      ((digitsToNat t2 : Nat) : Int) < fs →
      get_range_header ⟨t1 ++ '-' :: t2⟩ fs
        = (((digitsToNat t1 : Nat) : Int), ((digitsToNat t2 : Nat) : Int), true)) := by
  refine ⟨?_, rfl, rfl, rfl, ?_⟩
  · intro h hmal
    rw [get_range_header, hmal]
    exact ⟨rfl, rfl⟩
  · intro t1 t2 h1 h1' h2 h2' hle hlt
    have heq : '=' ∉ t1 ++ '-' :: t2 := by
      intro hm
      rcases List.mem_append.mp hm with hm | hm
      · exact not_eqsign_mem h2 hm
      · rcases List.mem_cons.mp hm with hm | hm
        · simp at hm
        · exact not_eqsign_mem h2' hm
    have hrepl : replaceAll "bytes=".data [] (t1 ++ '-' :: t2) = t1 ++ '-' :: t2 :=
      replaceAllAux_no_pat (x := '=') (by decide) _ _ heq
    have hsplit : splitOnDash (t1 ++ '-' :: t2) = [t1, t2] := by
      rw [splitOnDash_append_dash (not_dash_mem h2) t2,
        splitOnDash_no_dash (not_dash_mem h2')]
    have htry : get_range_header_try (t1 ++ '-' :: t2) fs
        = Except.ok (((digitsToNat t1 : Nat) : Int), ((digitsToNat t2 : Nat) : Int), true) := by
      simp only [get_range_header_try, hrepl, hsplit, pyInt_digits h1 h2,
        pyInt_digits h1' h2', if_neg h1']
      rw [if_neg]
      omega
    rw [get_range_header]
    simp only [htry]

/-- Claim C4 witness: the amended claim at fileSize 10000, applied to the
malformed header `bytes=abc-def` and to the prefix-less numeric header
`0-99`. -/
theorem C4_malformed_witness :
    get_range_header "bytes=abc-def" 10000 = (0, (10000 : Int) - 1, false) ∧
    get_range_header "0-99" 10000 = (0, 99, true) := by
  have h := C4_malformed_degrades_amended 10000 (by decide)
  refine ⟨(h.1 "bytes=abc-def" h.2.1).1, ?_⟩
  have hn := h.2.2.2.2 ['0'] ['9', '9'] (by decide) (by decide) (by decide)
    (by decide) (by decide) (by decide)
  rw [show ("0-99" : String) = ⟨['0'] ++ '-' :: ['9', '9']⟩ from rfl, hn]
  decide

/-- Claim C5 counterexample: the claim says the view endpoint resolves the
Content-Type as system mime database, then the extension fallback table, then
`application/octet-stream`.  For a `.mkv` file on a system whose mime
database has no `.mkv` entry (`guess = none`), the claimed order yields the
table entry `video/x-matroska`, but `view_file` (src/main.py lines 153-154)
never consults the table and answers `application/octet-stream`. -/
theorem C5_view_mime_counterexample :
    (view_file none [0] none).content_type = "application/octet-stream" ∧
    claimed_view_mime none ".mkv" = "video/x-matroska" ∧
    (view_file none [0] none).content_type ≠ claimed_view_mime none ".mkv" := by
  decide

/-- Claim C5 (amended): the three-step resolution order (system mime
database, then the extension-to-mime fallback table, then the generic
default) is implemented by `get_file_info` for directory-listing metadata;
the view endpoint itself resolves Content-Type from the system database with
direct fallback to `application/octet-stream`, and agrees with the three-step
order exactly when the database answers or the extension is outside the
table. -/
theorem C5_mime_resolution_amended (guess : Option String) (ext : String)
    (contents : List Nat) (range : Option String) :
    get_file_info_mime guess ext = claimed_view_mime guess ext ∧
    ((view_file guess contents range).content_type = claimed_view_mime guess ext ↔
      (guess ≠ none ∨ mime_map.lookup ext = none)) := by
  constructor
  · cases guess with
    | some m => rfl
    | none =>
      rw [get_file_info_mime, claimed_view_mime]
      cases mime_map.lookup ext <;> rfl
  · cases guess with
    | some m => simp [view_file, claimed_view_mime]
    | none =>
      cases hlk : mime_map.lookup ext with
      | none => simp [view_file, claimed_view_mime, hlk]
      | some v =>
        have hv : v ≠ "application/octet-stream" := by
          have hmem := lookup_mem hlk
          have hall : ∀ p ∈ mime_map, p.2 ≠ "application/octet-stream" := by decide
          exact hall (ext, v) hmem
        simp [view_file, claimed_view_mime, hlk, hv, Ne.symm hv]

/-- Claim C5 witness: when the system database answers (here `text/plain`
for `.txt`), listing resolution and view resolution agree with the claimed
order. -/
theorem C5_mime_witness :
    get_file_info_mime (some "text/plain") ".txt"
      = claimed_view_mime (some "text/plain") ".txt" ∧
    (view_file (some "text/plain") [0] none).content_type
      = claimed_view_mime (some "text/plain") ".txt" := by
  have h := C5_mime_resolution_amended (some "text/plain") ".txt" [0] none
  exact ⟨h.1, h.2.mpr (Or.inl (by simp))⟩

/-- Claim C6: for every fileSize > 0 and every open-ended header
`bytes=<start>-` whose decimal `start` is in bounds, parsing defaults `end`
to `fileSize - 1` and marks the range partial; the resulting
`end - start + 1` slice size is `fileSize - start`. -/
theorem C6_open_ended_defaults_end (t : List Char) (fs : Int) (hfs : 0 < fs)
    (h1 : t ≠ []) (h2 : ∀ c ∈ t, c.isDigit = true)
    (h3 : ((digitsToNat t : Nat) : Int) < fs) :
    get_range_header ⟨"bytes=".data ++ t ++ ['-']⟩ fs
      = (((digitsToNat t : Nat) : Int), fs - 1, true) ∧
    contentLengthOf (get_range_header ⟨"bytes=".data ++ t ++ ['-']⟩ fs)
      = fs - ((digitsToNat t : Nat) : Int) := by
  have heq : '=' ∉ t ++ ['-'] := by
    intro hm
    rcases List.mem_append.mp hm with hm | hm
    · exact not_eqsign_mem h2 hm
    · simp at hm
  have hrepl : replaceAll "bytes=".data [] ("bytes=".data ++ t ++ ['-']) = t ++ ['-'] := by
    rw [List.append_assoc]
    exact replaceAll_bytes _ heq
  have hsplit : splitOnDash (t ++ ['-']) = [t, []] := by
    rw [splitOnDash_append_dash (not_dash_mem h2) []]
    rfl
  have htry : get_range_header_try ("bytes=".data ++ t ++ ['-']) fs
      = Except.ok (((digitsToNat t : Nat) : Int), fs - 1, true) := by
    simp only [get_range_header_try, hrepl, hsplit, pyInt_digits h1 h2, if_true]
    rw [if_neg]
    omega
  have hmain : get_range_header ⟨"bytes=".data ++ t ++ ['-']⟩ fs
      = (((digitsToNat t : Nat) : Int), fs - 1, true) := by
    rw [get_range_header]
    simp only [htry]
  refine ⟨hmain, ?_⟩
  rw [hmain]
  simp only [contentLengthOf]
  omega

/-- Claim C6 witness: a 10,000-byte file and `Range: bytes=9990-` parse to
`(9990, 9999, True)` with slice size (Content-Length) 10. -/
theorem C6_open_ended_witness :
    get_range_header "bytes=9990-" 10000 = (9990, 9999, true) ∧
    contentLengthOf (get_range_header "bytes=9990-" 10000) = 10 := by
  have h := C6_open_ended_defaults_end ['9', '9', '9', '0'] 10000
    (by decide) (by decide) (by decide) (by decide)
  constructor
  · rw [show ("bytes=9990-" : String) = ⟨"bytes=".data ++ ['9', '9', '9', '0'] ++ ['-']⟩ from rfl,
      h.1]
    decide
  · rw [show ("bytes=9990-" : String) = ⟨"bytes=".data ++ ['9', '9', '9', '0'] ++ ['-']⟩ from rfl,
      h.2]
    decide

/-- Claim C7: the Accept-Ranges header is always `bytes`, and the
Content-Range header (value `bytes {start}-{end}/{fileSize}`) is present
exactly when the response is partial (status 206). -/
theorem C7_accept_ranges_content_range (guess : Option String)
    (contents : List Nat) (range : Option String) :
    (view_file guess contents range).accept_ranges = "bytes" ∧
    ((view_file guess contents range).content_range ≠ none ↔
      (view_file guess contents range).status_code = 206) ∧
    ((resolvedRange range (contents.length : Int)).2.2 = true →
      (view_file guess contents range).content_range =
        some ("bytes " ++ toString (resolvedRange range (contents.length : Int)).1 ++ "-" ++
          toString (resolvedRange range (contents.length : Int)).2.1 ++ "/" ++
          toString ((contents.length : Int)))) := by
  refine ⟨rfl, ?_, ?_⟩
  · cases hp : (resolvedRange range (contents.length : Int)).2.2 <;> simp [view_file, hp]
  · intro hp
    simp [view_file, hp]

/-- Claim C7 witness: a 3-byte file with `bytes=0-1` carries
`Accept-Ranges: bytes` and `Content-Range: bytes 0-1/3`. -/
theorem C7_headers_witness :
    (view_file none [0, 1, 2] (some "bytes=0-1")).accept_ranges = "bytes" ∧
    (view_file none [0, 1, 2] (some "bytes=0-1")).content_range = some "bytes 0-1/3" := by
  have h := C7_accept_ranges_content_range none [0, 1, 2] (some "bytes=0-1")
  refine ⟨h.1, ?_⟩
  rw [h.2.2 (by decide)]
  decide

/-- Claim C9: a zero-byte file with no Range header gets status 200, a
Content-Length of 0 and an empty body; the default range is
`(0, fileSize - 1, False) = (0, -1, False)` with a negative `end` in signed
arithmetic, and `end - start + 1` still evaluates to 0. -/
theorem C9_zero_byte_file (guess : Option String) :
    (view_file guess [] none).status_code = 200 ∧
    (view_file guess [] none).content_length = 0 ∧
    (view_file guess [] none).body = [] ∧
    resolvedRange none 0 = (0, -1, false) :=
  ⟨rfl, rfl, rfl, rfl⟩

/-- Claim C10: for every fileSize > 0 and every suffix-form header
`bytes=-N` (start omitted), the start token splits off as the empty string,
`int('')` raises `ValueError`, the failure is caught, and the parse returns
the full-file default `(0, fileSize - 1, False)` — last-N-bytes semantics is
never applied. -/
theorem C10_suffix_range_degrades (t : List Char) (fs : Int) (hfs : 0 < fs)
    (h1 : t ≠ []) (h2 : ∀ c ∈ t, c.isDigit = true) :
    get_range_header_try ("bytes=".data ++ '-' :: t) fs = Except.error PyExc.valueError ∧
    get_range_header ⟨"bytes=".data ++ '-' :: t⟩ fs = (0, fs - 1, false) := by
  have heq : '=' ∉ '-' :: t := by
    intro hm
    rcases List.mem_cons.mp hm with hm | hm
    · simp at hm
    · exact not_eqsign_mem h2 hm
  have hrepl : replaceAll "bytes=".data [] ("bytes=".data ++ '-' :: t) = '-' :: t :=
    replaceAll_bytes _ heq
  have hsplit : splitOnDash ('-' :: t) = [[], t] := by
    rw [splitOnDash, if_pos rfl, splitOnDash_no_dash (not_dash_mem h2)]
  have htry : get_range_header_try ("bytes=".data ++ '-' :: t) fs
      = Except.error PyExc.valueError := by
    simp only [get_range_header_try, hrepl, hsplit]
    rfl
  refine ⟨htry, ?_⟩
  rw [get_range_header]
  simp only [htry]

/-- Claim C10 witness: `bytes=-500` against a 100-byte file returns the
full-file default `(0, 99, False)`, not the last 500 bytes. -/
theorem C10_suffix_witness :
    get_range_header "bytes=-500" 100 = (0, 99, false) := by
  have h := C10_suffix_range_degrades ['5', '0', '0'] 100
    (by decide) (by decide) (by decide)
  rw [show ("bytes=-500" : String) = ⟨"bytes=".data ++ '-' :: ['5', '0', '0']⟩ from rfl,
    h.2]
  decide

end SFB
